import Mathlib

/-!
Shallow embedding of `src/reconcilePayments.ts` from the
payment-deduction-map repository, together with theorems settling the
frozen claims about it.

Modelling conventions:
* JavaScript numbers that the code feeds through `parseFloat` are modelled
  by `AmtVal`: a stored invoice amount is either absent (`missing`, i.e.
  `null`/`undefined`, which the code replaces by the string "0" before
  parsing), a numeric decimal value (`val q`), or a value whose string
  form has no numeric prefix so that `parseFloat` yields `NaN` (`nan`).
* Optional record fields (`SubInvoiceNumber`, `ReversalForVendorCaseId`,
  `PaymentRemittanceId`, ...) are `Option`s; the optional-chaining and
  truthiness tests of the source are translated explicitly (in JavaScript
  the number 0 is falsy, hence the extra `= 0` rejections).
* The database is a `DbState`: the `RemittanceInvoices` table rows, the
  `BillingLedger` rows, and the list of reported events (the
  success/error console lines that survive a rollback).  The in-memory
  payment and deduction snapshots handed to `processPayments` are plain
  records, mirroring the `raw: true` query results: updates go to
  `DbState.invoices`, never to the snapshots.
* `sequelize.transaction` is modelled by `runTx` plus a `TxOutcome`
  oracle saying which data-access step (if any) of the atomic unit
  throws; per the managed-transaction contract a throwing unit commits
  nothing, so `runTx` returns `none` and the caller keeps the original
  state (the `catch` branch of the source then returns `false`).
All definitions are total and executable; the embedding can never throw,
which is the counterpart of the optional-access style of the source.
-/

/-- Stored invoice amount as seen by `parseFloat(String(x ?? '0'))`. -/
inductive AmtVal where
  | missing : AmtVal
  | val : ℚ → AmtVal
  | nan : AmtVal
deriving DecidableEq

/-- Row of the `RemittanceInvoices` table (payment or deduction snapshot). -/
structure InvoiceRecord where
  Id : Nat
  VendorId : Nat
  RootInvoiceNumber : String
  SubInvoiceNumber : Option String
  InvoiceAmount : AmtVal
  InvoiceCurrency : Option String
  InvoiceDate : Int
  PaymentRemittanceId : Option Nat
  ReversalForVendorCaseId : Option Nat
  PaymentNumber : Option String
  InvoiceNumber : Option String
deriving DecidableEq

/-- Row of the `VendorCase` table; `IsValidCase` is tri-state in the source
(`null`/`undefined` vs an explicit boolean), hence `Option Bool`. -/
structure VendorCase where
  Id : Nat
  VendorId : Nat
  IsValidCase : Option Bool
deriving DecidableEq

/-- Row of the `Vendor` table. -/
structure Vendor where
  Id : Nat
  OrganizationId : Option Nat
deriving DecidableEq

/-- Row of the `BillingLedger` table, with the fields the script writes. -/
structure BillingLedgerEntry where
  VendorId : Nat
  OrganizationId : Nat
  BillingKey : String
  BillingKey2 : String
  KeySource : String
  Amount : AmtVal
  CurrencyCode : String
  Description : String
  CaseId : Option Nat
  CreatedBy : String
deriving DecidableEq

/-- Reported run events: the post-commit success line and the `catch`
error line of `mapPaymentToDeduction` (console output survives rollback). -/
inductive LogEvent where
  | mapped (paymentId deductionId : Nat)
  | mapError (paymentId deductionId : Nat)
deriving DecidableEq

/-- Database state threaded through the run. -/
structure DbState where
  invoices : List InvoiceRecord
  ledger : List BillingLedgerEntry
  events : List LogEvent
deriving DecidableEq

/-- Which data-access step of the atomic unit throws, if any. -/
inductive TxOutcome where
  | ok
  | failUpdate
  | failFind
  | failCreate
  | failCommit
deriving DecidableEq

/-- `pat` is a leading segment of `l` (helper for substring search). -/
def isSubAt : List Char → List Char → Bool
  | [], _ => true
  | _ :: _, [] => false
  | c :: cs, x :: xs => c == x && isSubAt cs xs

/-- `pat` occurs as a contiguous segment of `l` (helper for substring search). -/
def hasSub (pat : List Char) : List Char → Bool
  | [] => pat.isEmpty
  | x :: xs => isSubAt pat (x :: xs) || hasSub pat xs

/-- JavaScript `s.includes(pat)`. -/
def jsIncludes (s pat : String) : Bool := hasSub pat.data s.data

/-- `record.SubInvoiceNumber?.includes('SC')` under JS truthiness:
`undefined` (absent field) is falsy, i.e. `false`. -/
def subHasSC (sub : Option String) : Bool :=
  (sub.map (fun s => jsIncludes s "SC")).getD false

/-- `record.SubInvoiceNumber?.includes('PC')` under JS truthiness. -/
def subHasPC (sub : Option String) : Bool :=
  (sub.map (fun s => jsIncludes s "PC")).getD false

/-- `Math.abs` on a parsed numeric value. -/
def jsAbs (q : ℚ) : ℚ := if q < 0 then -q else q

/-- `parseFloat(String(x ?? '0'))`: a missing value becomes the string "0"
and parses to `0`; a non-numeric value parses to `NaN` (`none`). -/
def parseAmt : AmtVal → Option ℚ
  | AmtVal.missing => some 0
  | AmtVal.val q => some q
  | AmtVal.nan => none

/-- The amount comparison of `mapPaymentToDeduction`:
`parseFloat(String(p ?? '0')) !== Math.abs(parseFloat(String(d ?? '0')))`
fails the match; a `NaN` on either side makes `!==` hold, so the gate
yields `false` whenever either side fails to parse. -/
def amountGate (p d : AmtVal) : Bool :=
  match parseAmt p, parseAmt d with
  | some a, some b => decide (a = jsAbs b)
  | _, _ => false

/-- Composite grouping key of the script:
`${record.VendorId}|${record.RootInvoiceNumber}`. -/
def jsKey (r : InvoiceRecord) : String :=
  toString r.VendorId ++ "|" ++ r.RootInvoiceNumber

/-- `buildDeductionMap`: groups deductions by `jsKey`, preserving the
original relative order within each group; a key that was never inserted
looks up to `[]`, matching `deductionMap.get(key) || []`. -/
def buildDeductionMap (deductions : List InvoiceRecord) : String → List InvoiceRecord :=
  fun key => deductions.filter (fun d => jsKey d == key)

/-- The `RemittanceInvoices.update({PaymentRemittanceId: pid}, {where: {Id: targetId}})`
write: every table row whose `Id` matches is updated. -/
def updatePRI (targetId newPid : Nat) (l : List InvoiceRecord) : List InvoiceRecord :=
  l.map (fun r => if r.Id = targetId then { r with PaymentRemittanceId := some newPid } else r)

/-- The `where` clause of the `BillingLedger.findOne` idempotence lookup. -/
def ledgerKeyMatches (p : InvoiceRecord) (organizationId : Nat) (e : BillingLedgerEntry) : Bool :=
  e.VendorId == p.VendorId &&
  e.OrganizationId == organizationId &&
  e.BillingKey == p.PaymentNumber.getD "" &&
  e.BillingKey2 == p.InvoiceNumber.getD "" &&
  e.KeySource == "RemittanceInvoice"

/-- A template literal `${x}` renders an absent value as "undefined". -/
def jsTemplateOpt : Option String → String
  | none => "undefined"
  | some s => s

/-- The fields of the `BillingLedger.create` call (`DateCreated`, a wall
clock read, is outside the model). -/
def newLedgerEntry (p : InvoiceRecord) (organizationId caseId : Nat) : BillingLedgerEntry :=
  { VendorId := p.VendorId
    OrganizationId := organizationId
    BillingKey := p.PaymentNumber.getD ""
    BillingKey2 := p.InvoiceNumber.getD ""
    KeySource := "RemittanceInvoice"
    Amount := p.InvoiceAmount
    CurrencyCode := p.InvoiceCurrency.getD ""
    Description := "Billing for " ++ jsTemplateOpt p.InvoiceNumber
    CaseId := some caseId
    CreatedBy := "auto-mapper-script" }

/-- The body of `sequelize.transaction` in `mapPaymentToDeduction`:
update the deduction row, look up an existing ledger entry by the
idempotence key, create a new entry only when none exists.  The
`TxOutcome` oracle selects the data-access step (if any) that throws;
a throwing unit commits nothing, so the result is `none` and the caller
stays on the pre-transaction state. -/
def runTx (p d : InvoiceRecord) (organizationId caseId : Nat)
    (outcome : TxOutcome) (st : DbState) : Option DbState :=
  if outcome = TxOutcome.failUpdate then none else
  if outcome = TxOutcome.failFind then none else
  match st.ledger.find? (ledgerKeyMatches p organizationId) with
  | some _ =>
    if outcome = TxOutcome.failCommit then none
    else some { st with invoices := updatePRI d.Id p.Id st.invoices }
  | none =>
    if outcome = TxOutcome.failCreate then none else
    if outcome = TxOutcome.failCommit then none else
    some { st with invoices := updatePRI d.Id p.Id st.invoices, ledger := st.ledger ++ [newLedgerEntry p organizationId caseId] }

/-- `!deductionIsShortageClaim && !deductionIsPriceClaim`. -/
def deductionTypeMissing (d : InvoiceRecord) : Bool :=
  !(subHasSC d.SubInvoiceNumber) && !(subHasPC d.SubInvoiceNumber)

/-- `(paymentIsShortageClaim && !deductionIsShortageClaim) ||
(paymentIsPriceClaim && !deductionIsPriceClaim)`. -/
def crossTypeRejected (p d : InvoiceRecord) : Bool :=
  (subHasSC p.SubInvoiceNumber && !(subHasSC d.SubInvoiceNumber)) ||
  (subHasPC p.SubInvoiceNumber && !(subHasPC d.SubInvoiceNumber))

/-- The early skip of `processPayments`:
`paymentIsShortageClaim || paymentIsPriceClaim` must be truthy. -/
def paymentTypeEligible (p : InvoiceRecord) : Bool :=
  subHasSC p.SubInvoiceNumber || subHasPC p.SubInvoiceNumber

/-- The straight-line early-return prefix of `mapPaymentToDeduction`,
executed before `sequelize.transaction` is entered: claim-type checks,
amount check, vendor-case validity, vendor organization lookup (with the
JS falsiness rejections of the id 0).  Returns the `(caseId,
organizationId)` context needed by the transaction body, or `none` at
the first failing check. -/
def resolveMatchContext (p d : InvoiceRecord)
    (vendorCaseMap : Nat → Option VendorCase) (vendorMap : Nat → Option Vendor) :
    Option (Nat × Nat) :=
  if deductionTypeMissing d then none
  else if crossTypeRejected p d then none
  else if !(amountGate p.InvoiceAmount d.InvoiceAmount) then none
  else match d.ReversalForVendorCaseId with
  | none => none
  | some caseId =>
    if caseId = 0 then none
    else match vendorCaseMap caseId with
    | none => none
    | some vcase =>
      match vcase.IsValidCase with
      | none => none
      | some _ =>
        match vendorMap vcase.VendorId with
        | none => none
        | some vendor =>
          match vendor.OrganizationId with
          | none => none
          | some organizationId =>
            if organizationId = 0 then none else some (caseId, organizationId)

/-- `mapPaymentToDeduction`: run the early-return eligibility prefix,
then the transaction; on a throwing transaction the `catch` branch logs
the error and returns `false` with all writes rolled back; on success the
post-commit log line is emitted and the call returns `true`. -/
def mapPaymentToDeduction (p d : InvoiceRecord)
    (vendorCaseMap : Nat → Option VendorCase) (vendorMap : Nat → Option Vendor)
    (outcome : TxOutcome) (st : DbState) : Bool × DbState :=
  match resolveMatchContext p d vendorCaseMap vendorMap with
  | none => (false, st)
  | some (caseId, organizationId) =>
    match runTx p d organizationId caseId outcome st with
    | none => (false, { st with events := st.events ++ [LogEvent.mapError p.Id d.Id] })
    | some st2 => (true, { st2 with events := st2.events ++ [LogEvent.mapped p.Id d.Id] })

/-- The inner candidate loop of `processPayments`: skip a deduction dated
strictly after the payment, otherwise attempt the map and stop at the
first success.  Returns the matched deduction, if any. -/
def tryCandidates (p : InvoiceRecord)
    (vendorCaseMap : Nat → Option VendorCase) (vendorMap : Nat → Option Vendor)
    (oracle : InvoiceRecord → InvoiceRecord → TxOutcome) :
    List InvoiceRecord → DbState → Option InvoiceRecord × DbState
  | [], st => (none, st)
  | d :: rest, st =>
    if d.InvoiceDate > p.InvoiceDate then tryCandidates p vendorCaseMap vendorMap oracle rest st
    else
      match mapPaymentToDeduction p d vendorCaseMap vendorMap (oracle p d) st with
      | (true, st2) => (some d, st2)
      | (false, st2) => tryCandidates p vendorCaseMap vendorMap oracle rest st2

/-- One iteration of the outer loop of `processPayments`: skip a payment
carrying neither claim marker, otherwise look up its candidate group and
scan it. -/
def processPayment (p : InvoiceRecord) (deductionMap : String → List InvoiceRecord)
    (vendorCaseMap : Nat → Option VendorCase) (vendorMap : Nat → Option Vendor)
    (oracle : InvoiceRecord → InvoiceRecord → TxOutcome)
    (st : DbState) : Option InvoiceRecord × DbState :=
  if !(paymentTypeEligible p) then (none, st)
  else tryCandidates p vendorCaseMap vendorMap oracle (deductionMap (jsKey p)) st

/-- `processPayments`: process every payment in input order; the result
list records, per payment, which deduction (if any) it was mapped to. -/
def processPayments (payments : List InvoiceRecord)
    (deductionMap : String → List InvoiceRecord)
    (vendorCaseMap : Nat → Option VendorCase) (vendorMap : Nat → Option Vendor)
    (oracle : InvoiceRecord → InvoiceRecord → TxOutcome)
    (st : DbState) : List (Option InvoiceRecord) × DbState :=
  match payments with
  | [] => ([], st)
  | p :: ps =>
    let r1 := processPayment p deductionMap vendorCaseMap vendorMap oracle st
    let r2 := processPayments ps deductionMap vendorCaseMap vendorMap oracle r1.2
    (r1.1 :: r2.1, r2.2)

/-- Idempotence key of a ledger row, as the tuple of the five fields the
`findOne` lookup constrains. -/
def entryKey (e : BillingLedgerEntry) : Nat × Nat × String × String × String :=
  (e.VendorId, e.OrganizationId, e.BillingKey, e.BillingKey2, e.KeySource)

/-- At most one ledger row per idempotence key. -/
def atMostOnePerKey (l : List BillingLedgerEntry) : Prop :=
  ∀ k, l.countP (fun e => decide (entryKey e = k)) ≤ 1

/-- Modelled from the spec: the coercion the spec describes for the amount
comparison, in which "non-numeric/missing values [are] treated as zero". -/
def specParseAmt : AmtVal → ℚ
  | AmtVal.missing => 0
  | AmtVal.val q => q
  | AmtVal.nan => 0

/-- Modelled from the spec: the amount-equality comparison of the spec,
`payment.InvoiceAmount == abs(deduction.InvoiceAmount)` with non-numeric
and missing values treated as zero.  Compared with `amountGate`. -/
def specAmountCmp (p d : AmtVal) : Bool :=
  decide (specParseAmt p = jsAbs (specParseAmt d))

/-- Modelled from the spec: a sub-invoice identifier contains "exactly one
of the two claim markers".  Compared with the claim-type checks of the code. -/
def specExactlyOneMarker (sub : Option String) : Bool :=
  (subHasSC sub && !(subHasPC sub)) || (subHasPC sub && !(subHasSC sub))

/-- Modelled from the spec: the claim-type gate as the claim states it:
payment and deduction each carry exactly one marker and the two markers
agree.  Compared with the checks the code performs. -/
def specClaimTypeGate (p d : InvoiceRecord) : Bool :=
  specExactlyOneMarker p.SubInvoiceNumber && specExactlyOneMarker d.SubInvoiceNumber &&
  (subHasSC p.SubInvoiceNumber == subHasSC d.SubInvoiceNumber)

/-- Some raw amount value repeats in the list. -/
def hasDupAmt : List AmtVal → Bool
  | [] => false
  | a :: rest => rest.contains a || hasDupAmt rest

/-- Modelled from the spec: the AmbiguityGuard predicate — a deduction
group is ambiguous when two of its members carry the same raw amount
value.  The code has no counterpart; the definition follows the words of
the spec. -/
def specHasAmbiguousAmounts (g : List InvoiceRecord) : Bool :=
  hasDupAmt (g.map (fun d => d.InvoiceAmount))

/-- Vendor-case map fixture: one case, id 3, owned by vendor 7, valid. -/
def vcFix : Nat → Option VendorCase :=
  fun i => if i = 3 then some { Id := 3, VendorId := 7, IsValidCase := some true } else none

/-- Vendor map fixture: vendor 7 with organization 4. -/
def vmFix : Nat → Option Vendor :=
  fun i => if i = 7 then some { Id := 7, OrganizationId := some 4 } else none

/-- Oracle fixture: every transaction commits. -/
def ocOk : InvoiceRecord → InvoiceRecord → TxOutcome := fun _ _ => TxOutcome.ok

/-- Deduction fixture: shortage-claim deduction of -50 under key "1|R". -/
def dedA : InvoiceRecord :=
  { Id := 9, VendorId := 1, RootInvoiceNumber := "R", SubInvoiceNumber := some "SC-3"
    InvoiceAmount := AmtVal.val (-50), InvoiceCurrency := some "USD", InvoiceDate := 5
    PaymentRemittanceId := none, ReversalForVendorCaseId := some 3
    PaymentNumber := none, InvoiceNumber := some "D9" }

/-- Second deduction fixture with the same key and the same raw amount. -/
def dedB : InvoiceRecord := { dedA with Id := 10, InvoiceNumber := some "D10" }

/-- Deduction fixture whose sub-invoice identifier carries both markers. -/
def dedMixed : InvoiceRecord := { dedA with SubInvoiceNumber := some "SCPC-1" }

/-- Deduction fixture dated strictly after `payA`. -/
def dedLate : InvoiceRecord := { dedA with InvoiceDate := 99 }

/-- Deduction fixture with stored amount 0. -/
def dedZero : InvoiceRecord := { dedA with InvoiceAmount := AmtVal.val 0 }

/-- Payment fixture: shortage-claim payment of 50 under key "1|R". -/
def payA : InvoiceRecord :=
  { Id := 1, VendorId := 1, RootInvoiceNumber := "R", SubInvoiceNumber := some "SC-7"
    InvoiceAmount := AmtVal.val 50, InvoiceCurrency := some "USD", InvoiceDate := 10
    PaymentRemittanceId := none, ReversalForVendorCaseId := none
    PaymentNumber := some "P100", InvoiceNumber := some "I100" }

/-- Second payment fixture, identical amount and key, distinct identity. -/
def payB : InvoiceRecord := { payA with Id := 2, PaymentNumber := some "P200", InvoiceNumber := some "I200" }

/-- Payment fixture whose stored amount does not parse (`parseFloat` NaN). -/
def payNaN : InvoiceRecord := { payA with InvoiceAmount := AmtVal.nan }

/-- Payment fixture whose amount, 100, mismatches every fixture deduction. -/
def payMismatch : InvoiceRecord := { payA with InvoiceAmount := AmtVal.val 100 }

/-- Initial state fixture holding the two equal-amount deduction rows. -/
def st0 : DbState := { invoices := [dedA, dedB], ledger := [], events := [] }

/-- Initial state fixture holding the single deduction row. -/
def st1 : DbState := { invoices := [dedA], ledger := [], events := [] }

/-- Oracle fixture: every transaction fails at the commit step. -/
def ocFail : InvoiceRecord → InvoiceRecord → TxOutcome := fun _ _ => TxOutcome.failCommit

/-- Payment fixture with a null sub-invoice identifier. -/
def payNoSub : InvoiceRecord := { payA with SubInvoiceNumber := none }

/-- Deduction fixture with a null sub-invoice identifier. -/
def dedNoSub : InvoiceRecord := { dedA with SubInvoiceNumber := none }

/-- Ledger fixture: the entry `payA` would create, pre-existing. -/
def ledgerE : BillingLedgerEntry := newLedgerEntry payA 4 3

/-- State fixture whose ledger already holds the entry for `payA`. -/
def stL : DbState := { invoices := [dedA], ledger := [ledgerE], events := [] }

/-- State fixture: the state after `payA` successfully maps `dedA` on `st1`. -/
def stAfterB : DbState := (mapPaymentToDeduction payA dedA vcFix vmFix (ocOk payA dedA) st1).2

/-- State fixture: the state a committed unit for `payA`/`dedA` produces on `st1`. -/
def stTx : DbState :=
  { st1 with invoices := updatePRI dedA.Id payA.Id st1.invoices, ledger := [newLedgerEntry payA 4 3] }

/-- A committed atomic unit always carries the deduction update: the
`invoices` component of any state `runTx` returns is the updated table. -/
theorem runTx_some_invoices (p d : InvoiceRecord) (oid cid : Nat) (oc : TxOutcome)
    (st st2 : DbState) (h : runTx p d oid cid oc st = some st2) :
    st2.invoices = updatePRI d.Id p.Id st.invoices := by
  unfold runTx at h
  split at h
  · simp at h
  · split at h
    · simp at h
    · split at h
      · split at h
        · simp at h
        · cases h; rfl
      · split at h
        · simp at h
        · split at h
          · simp at h
          · cases h; rfl

/-- A committed atomic unit never touches the events list. -/
theorem runTx_some_events (p d : InvoiceRecord) (oid cid : Nat) (oc : TxOutcome)
    (st st2 : DbState) (h : runTx p d oid cid oc st = some st2) :
    st2.events = st.events := by
  unfold runTx at h
  split at h
  · simp at h
  · split at h
    · simp at h
    · split at h
      · split at h
        · simp at h
        · cases h; rfl
      · split at h
        · simp at h
        · split at h
          · simp at h
          · cases h; rfl

/-- A committed atomic unit either leaves the ledger alone (an entry with
the idempotence key already existed) or appends exactly the new entry. -/
theorem runTx_some_ledger (p d : InvoiceRecord) (oid cid : Nat) (oc : TxOutcome)
    (st st2 : DbState) (h : runTx p d oid cid oc st = some st2) :
    st2.ledger = st.ledger ∨
      (st.ledger.find? (ledgerKeyMatches p oid) = none ∧
        st2.ledger = st.ledger ++ [newLedgerEntry p oid cid]) := by
  unfold runTx at h
  split at h
  · simp at h
  · split at h
    · simp at h
    · split at h
      · split at h
        · simp at h
        · cases h; left; rfl
      · split at h
        · simp at h
        · split at h
          · simp at h
          · cases h
            right
            refine ⟨by assumption, rfl⟩

/-- With no throwing step and an existing ledger entry under the key, the
unit commits just the deduction update. -/
theorem runTx_ok_existing (p d : InvoiceRecord) (oid cid : Nat) (st : DbState)
    (e : BillingLedgerEntry) (hfind : st.ledger.find? (ledgerKeyMatches p oid) = some e) :
    runTx p d oid cid TxOutcome.ok st =
      some { st with invoices := updatePRI d.Id p.Id st.invoices } := by
  unfold runTx
  simp [hfind]

/-- A pair failing any pre-transaction eligibility check is returned
unmatched with the state untouched. -/
theorem mapPTD_ctx_none (p d : InvoiceRecord) (vc : Nat → Option VendorCase)
    (vm : Nat → Option Vendor) (oc : TxOutcome) (st : DbState)
    (h : resolveMatchContext p d vc vm = none) :
    mapPaymentToDeduction p d vc vm oc st = (false, st) := by
  unfold mapPaymentToDeduction
  rw [h]

/-- A throwing atomic unit yields an unmatched pair; only the error
report is appended, all writes are discarded. -/
theorem mapPTD_tx_none (p d : InvoiceRecord) (vc : Nat → Option VendorCase)
    (vm : Nat → Option Vendor) (oc : TxOutcome) (st : DbState) (cid oid : Nat)
    (hc : resolveMatchContext p d vc vm = some (cid, oid))
    (ht : runTx p d oid cid oc st = none) :
    mapPaymentToDeduction p d vc vm oc st =
      (false, { st with events := st.events ++ [LogEvent.mapError p.Id d.Id] }) := by
  unfold mapPaymentToDeduction
  rw [hc]
  simp [ht]

/-- A committed atomic unit yields a matched pair plus the success report. -/
theorem mapPTD_tx_some (p d : InvoiceRecord) (vc : Nat → Option VendorCase)
    (vm : Nat → Option Vendor) (oc : TxOutcome) (st st2 : DbState) (cid oid : Nat)
    (hc : resolveMatchContext p d vc vm = some (cid, oid))
    (ht : runTx p d oid cid oc st = some st2) :
    mapPaymentToDeduction p d vc vm oc st =
      (true, { st2 with events := st2.events ++ [LogEvent.mapped p.Id d.Id] }) := by
  unfold mapPaymentToDeduction
  rw [hc]
  simp [ht]

/-- An unmatched pair leaves both tables unchanged (the rollback
guarantee seen from the caller). -/
theorem mapPTD_false_writes (p d : InvoiceRecord) (vc : Nat → Option VendorCase)
    (vm : Nat → Option Vendor) (oc : TxOutcome) (st : DbState)
    (h : (mapPaymentToDeduction p d vc vm oc st).1 = false) :
    (mapPaymentToDeduction p d vc vm oc st).2.invoices = st.invoices ∧
    (mapPaymentToDeduction p d vc vm oc st).2.ledger = st.ledger := by
  cases hc : resolveMatchContext p d vc vm with
  | none => rw [mapPTD_ctx_none p d vc vm oc st hc]; exact ⟨rfl, rfl⟩
  | some c =>
    obtain ⟨cid, oid⟩ := c
    cases ht : runTx p d oid cid oc st with
    | none => rw [mapPTD_tx_none p d vc vm oc st cid oid hc ht]; exact ⟨rfl, rfl⟩
    | some st2 => rw [mapPTD_tx_some p d vc vm oc st st2 cid oid hc ht] at h; simp at h

/-- A matched pair has carried out exactly the deduction update on the
invoice table. -/
theorem mapPTD_true_invoices (p d : InvoiceRecord) (vc : Nat → Option VendorCase)
    (vm : Nat → Option Vendor) (oc : TxOutcome) (st : DbState)
    (h : (mapPaymentToDeduction p d vc vm oc st).1 = true) :
    (mapPaymentToDeduction p d vc vm oc st).2.invoices = updatePRI d.Id p.Id st.invoices := by
  cases hc : resolveMatchContext p d vc vm with
  | none => rw [mapPTD_ctx_none p d vc vm oc st hc] at h; simp at h
  | some c =>
    obtain ⟨cid, oid⟩ := c
    cases ht : runTx p d oid cid oc st with
    | none => rw [mapPTD_tx_none p d vc vm oc st cid oid hc ht] at h; simp at h
    | some st2 =>
      rw [mapPTD_tx_some p d vc vm oc st st2 cid oid hc ht]
      exact runTx_some_invoices p d oid cid oc st st2 ht

/-- The invoice table after a map attempt: unchanged, or the single
deduction update. -/
theorem mapPTD_invoices (p d : InvoiceRecord) (vc : Nat → Option VendorCase)
    (vm : Nat → Option Vendor) (oc : TxOutcome) (st : DbState) :
    (mapPaymentToDeduction p d vc vm oc st).2.invoices = st.invoices ∨
    (mapPaymentToDeduction p d vc vm oc st).2.invoices = updatePRI d.Id p.Id st.invoices := by
  cases hb : (mapPaymentToDeduction p d vc vm oc st).1 with
  | false => exact Or.inl (mapPTD_false_writes p d vc vm oc st hb).1
  | true => exact Or.inr (mapPTD_true_invoices p d vc vm oc st hb)

/-- The ledger after a map attempt: unchanged, or extended by exactly the
new entry when no entry with the idempotence key existed. -/
theorem mapPTD_ledger_cases (p d : InvoiceRecord) (vc : Nat → Option VendorCase)
    (vm : Nat → Option Vendor) (oc : TxOutcome) (st : DbState) :
    (mapPaymentToDeduction p d vc vm oc st).2.ledger = st.ledger ∨
    ∃ cid oid, resolveMatchContext p d vc vm = some (cid, oid) ∧
      st.ledger.find? (ledgerKeyMatches p oid) = none ∧
      (mapPaymentToDeduction p d vc vm oc st).2.ledger = st.ledger ++ [newLedgerEntry p oid cid] := by
  cases hc : resolveMatchContext p d vc vm with
  | none => rw [mapPTD_ctx_none p d vc vm oc st hc]; exact Or.inl rfl
  | some c =>
    obtain ⟨cid, oid⟩ := c
    cases ht : runTx p d oid cid oc st with
    | none => rw [mapPTD_tx_none p d vc vm oc st cid oid hc ht]; exact Or.inl rfl
    | some st2 =>
      rw [mapPTD_tx_some p d vc vm oc st st2 cid oid hc ht]
      rcases runTx_some_ledger p d oid cid oc st st2 ht with hl | ⟨hf, hl⟩
      · exact Or.inl hl
      · exact Or.inr ⟨cid, oid, rfl, hf, hl⟩


/-- Empty candidate list: no match, state untouched. -/
theorem tryCandidates_nil (p : InvoiceRecord) (vc : Nat → Option VendorCase)
    (vm : Nat → Option Vendor) (oc : InvoiceRecord → InvoiceRecord → TxOutcome)
    (st : DbState) : tryCandidates p vc vm oc [] st = (none, st) := rfl

/-- A candidate dated strictly after the payment is skipped with no
attempt and no effect. -/
theorem tryCandidates_cons_skip (p d : InvoiceRecord) (vc : Nat → Option VendorCase)
    (vm : Nat → Option Vendor) (oc : InvoiceRecord → InvoiceRecord → TxOutcome)
    (rest : List InvoiceRecord) (st : DbState) (h : d.InvoiceDate > p.InvoiceDate) :
    tryCandidates p vc vm oc (d :: rest) st = tryCandidates p vc vm oc rest st := by
  simp only [tryCandidates]
  rw [if_pos h]

/-- A candidate passing the chronology filter whose map attempt succeeds
ends the scan at that candidate. -/
theorem tryCandidates_cons_true (p d : InvoiceRecord) (vc : Nat → Option VendorCase)
    (vm : Nat → Option Vendor) (oc : InvoiceRecord → InvoiceRecord → TxOutcome)
    (rest : List InvoiceRecord) (st : DbState) (hd : ¬ d.InvoiceDate > p.InvoiceDate)
    (hm : (mapPaymentToDeduction p d vc vm (oc p d) st).1 = true) :
    tryCandidates p vc vm oc (d :: rest) st =
      (some d, (mapPaymentToDeduction p d vc vm (oc p d) st).2) := by
  simp only [tryCandidates]
  rw [if_neg hd]
  cases hmk : mapPaymentToDeduction p d vc vm (oc p d) st with
  | mk b s =>
    cases b with
    | true => simp
    | false => rw [hmk] at hm; simp at hm

/-- A candidate passing the chronology filter whose map attempt fails is
passed over and the scan continues on the post-attempt state. -/
theorem tryCandidates_cons_false (p d : InvoiceRecord) (vc : Nat → Option VendorCase)
    (vm : Nat → Option Vendor) (oc : InvoiceRecord → InvoiceRecord → TxOutcome)
    (rest : List InvoiceRecord) (st : DbState) (hd : ¬ d.InvoiceDate > p.InvoiceDate)
    (hm : (mapPaymentToDeduction p d vc vm (oc p d) st).1 = false) :
    tryCandidates p vc vm oc (d :: rest) st =
      tryCandidates p vc vm oc rest (mapPaymentToDeduction p d vc vm (oc p d) st).2 := by
  simp only [tryCandidates]
  rw [if_neg hd]
  cases hmk : mapPaymentToDeduction p d vc vm (oc p d) st with
  | mk b s =>
    cases b with
    | true => rw [hmk] at hm; simp at hm
    | false => simp

/-- Any selected candidate passed the chronology filter. -/
theorem tryCandidates_selected_chrono (p : InvoiceRecord) (vc : Nat → Option VendorCase)
    (vm : Nat → Option Vendor) (oc : InvoiceRecord → InvoiceRecord → TxOutcome) :
    ∀ (ds : List InvoiceRecord) (st : DbState) (dsel : InvoiceRecord) (st3 : DbState),
      tryCandidates p vc vm oc ds st = (some dsel, st3) →
      ¬ dsel.InvoiceDate > p.InvoiceDate := by
  intro ds
  induction ds with
  | nil =>
    intro st dsel st3 h
    rw [tryCandidates_nil] at h
    simp at h
  | cons a rest ih =>
    intro st dsel st3 h
    by_cases hd : a.InvoiceDate > p.InvoiceDate
    · rw [tryCandidates_cons_skip p a vc vm oc rest st hd] at h
      exact ih st dsel st3 h
    · cases hb : (mapPaymentToDeduction p a vc vm (oc p a) st).1 with
      | true =>
        rw [tryCandidates_cons_true p a vc vm oc rest st hd hb] at h
        simp only [Prod.mk.injEq] at h
        obtain ⟨h1, _⟩ := h
        obtain rfl := Option.some.inj h1
        exact hd
      | false =>
        rw [tryCandidates_cons_false p a vc vm oc rest st hd hb] at h
        exact ih _ dsel st3 h

/-- The scan changes the invoice table by at most one deduction update. -/
theorem tryCandidates_invoices (p : InvoiceRecord) (vc : Nat → Option VendorCase)
    (vm : Nat → Option Vendor) (oc : InvoiceRecord → InvoiceRecord → TxOutcome) :
    ∀ (ds : List InvoiceRecord) (st : DbState),
      (tryCandidates p vc vm oc ds st).2.invoices = st.invoices ∨
      ∃ d : InvoiceRecord, (tryCandidates p vc vm oc ds st).2.invoices = updatePRI d.Id p.Id st.invoices := by
  intro ds
  induction ds with
  | nil => intro st; left; rfl
  | cons a rest ih =>
    intro st
    by_cases hd : a.InvoiceDate > p.InvoiceDate
    · rw [tryCandidates_cons_skip p a vc vm oc rest st hd]
      exact ih st
    · cases hb : (mapPaymentToDeduction p a vc vm (oc p a) st).1 with
      | true =>
        rw [tryCandidates_cons_true p a vc vm oc rest st hd hb]
        exact Or.inr ⟨a, mapPTD_true_invoices p a vc vm (oc p a) st hb⟩
      | false =>
        rw [tryCandidates_cons_false p a vc vm oc rest st hd hb]
        have hkeep := (mapPTD_false_writes p a vc vm (oc p a) st hb).1
        rcases ih (mapPaymentToDeduction p a vc vm (oc p a) st).2 with h | ⟨d, h⟩
        · left; rw [h, hkeep]
        · right; exact ⟨d, by rw [h, hkeep]⟩

/-- A payment carrying neither claim marker is skipped before the
candidate lookup: no result, no effect, for every candidate index. -/
theorem processPayment_skip (p : InvoiceRecord) (dmap : String → List InvoiceRecord)
    (vc : Nat → Option VendorCase) (vm : Nat → Option Vendor)
    (oc : InvoiceRecord → InvoiceRecord → TxOutcome) (st : DbState)
    (h : paymentTypeEligible p = false) :
    processPayment p dmap vc vm oc st = (none, st) := by
  unfold processPayment
  rw [h]
  rfl

/-- A claim-marked payment scans its key group. -/
theorem processPayment_scan (p : InvoiceRecord) (dmap : String → List InvoiceRecord)
    (vc : Nat → Option VendorCase) (vm : Nat → Option Vendor)
    (oc : InvoiceRecord → InvoiceRecord → TxOutcome) (st : DbState)
    (h : paymentTypeEligible p = true) :
    processPayment p dmap vc vm oc st = tryCandidates p vc vm oc (dmap (jsKey p)) st := by
  unfold processPayment
  rw [h]
  rfl

/-- One payment changes the invoice table by at most one deduction update. -/
theorem processPayment_invoices (p : InvoiceRecord) (dmap : String → List InvoiceRecord)
    (vc : Nat → Option VendorCase) (vm : Nat → Option Vendor)
    (oc : InvoiceRecord → InvoiceRecord → TxOutcome) (st : DbState) :
    (processPayment p dmap vc vm oc st).2.invoices = st.invoices ∨
    ∃ d : InvoiceRecord, (processPayment p dmap vc vm oc st).2.invoices = updatePRI d.Id p.Id st.invoices := by
  cases h : paymentTypeEligible p with
  | false => rw [processPayment_skip p dmap vc vm oc st h]; exact Or.inl rfl
  | true => rw [processPayment_scan p dmap vc vm oc st h]; exact tryCandidates_invoices p vc vm oc _ st

/-- Unfolding equation for the outer loop. -/
theorem processPayments_cons (p : InvoiceRecord) (ps : List InvoiceRecord)
    (dmap : String → List InvoiceRecord) (vc : Nat → Option VendorCase)
    (vm : Nat → Option Vendor) (oc : InvoiceRecord → InvoiceRecord → TxOutcome)
    (st : DbState) :
    processPayments (p :: ps) dmap vc vm oc st =
      ((processPayment p dmap vc vm oc st).1 ::
        (processPayments ps dmap vc vm oc (processPayment p dmap vc vm oc st).2).1,
       (processPayments ps dmap vc vm oc (processPayment p dmap vc vm oc st).2).2) := rfl

/-- Every payment of the run yields a result entry: the run never aborts. -/
theorem processPayments_length (dmap : String → List InvoiceRecord)
    (vc : Nat → Option VendorCase) (vm : Nat → Option Vendor)
    (oc : InvoiceRecord → InvoiceRecord → TxOutcome) :
    ∀ (ps : List InvoiceRecord) (st : DbState),
      (processPayments ps dmap vc vm oc st).1.length = ps.length := by
  intro ps
  induction ps with
  | nil => intro st; rfl
  | cons p ps ih =>
    intro st
    rw [processPayments_cons]
    simp [ih]

/-- The deduction update preserves the list of row identifiers. -/
theorem updatePRI_map_id (i pid : Nat) :
    ∀ l : List InvoiceRecord, (updatePRI i pid l).map (fun r => r.Id) = l.map (fun r => r.Id) := by
  intro l
  induction l with
  | nil => rfl
  | cons a l ih =>
    have hstep : updatePRI i pid (a :: l) =
        (if a.Id = i then { a with PaymentRemittanceId := some pid } else a) :: updatePRI i pid l := rfl
    rw [hstep, List.map_cons, List.map_cons, ih]
    congr 1
    by_cases h : a.Id = i
    · rw [if_pos h]
    · rw [if_neg h]

/-- Updating rows to `pid` cannot raise the tally of a different payment id. -/
theorem countP_updatePRI_ne (i pid x : Nat) (hx : x ≠ pid) (l : List InvoiceRecord) :
    (updatePRI i pid l).countP (fun r => decide (r.PaymentRemittanceId = some x)) ≤
      l.countP (fun r => decide (r.PaymentRemittanceId = some x)) := by
  unfold updatePRI
  rw [List.countP_map]
  apply List.countP_mono_left
  intro r _ hpred
  by_cases h : r.Id = i
  · exfalso
    simp only [Function.comp, h, if_pos, decide_eq_true_eq] at hpred
    exact hx (Option.some.inj hpred).symm
  · simpa [Function.comp, h] using hpred

/-- The tally of the updating payment id grows by at most the number of
rows carrying the target row id. -/
theorem countP_updatePRI_self_le (i pid : Nat) :
    ∀ l : List InvoiceRecord,
      (updatePRI i pid l).countP (fun r => decide (r.PaymentRemittanceId = some pid)) ≤
        l.countP (fun r => decide (r.Id = i)) +
          l.countP (fun r => decide (r.PaymentRemittanceId = some pid)) := by
  intro l
  induction l with
  | nil => exact Nat.le_refl 0
  | cons a l ih =>
    have hstep : updatePRI i pid (a :: l) =
        (if a.Id = i then { a with PaymentRemittanceId := some pid } else a) :: updatePRI i pid l := rfl
    rw [hstep, List.countP_cons, List.countP_cons, List.countP_cons]
    by_cases h : a.Id = i
    · rw [if_pos h]
      cases hc : decide (a.PaymentRemittanceId = some pid) <;> simp [h, hc] <;> omega
    · rw [if_neg h]
      cases hc : decide (a.PaymentRemittanceId = some pid) <;> simp [h, hc] <;> omega

/-- With distinct row ids, at most one row carries any given id. -/
theorem countP_id_le_one_of_nodup :
    ∀ l : List InvoiceRecord, (l.map (fun r => r.Id)).Nodup → ∀ i : Nat,
      l.countP (fun r => decide (r.Id = i)) ≤ 1 := by
  intro l
  induction l with
  | nil => intro _ i; exact Nat.zero_le 1
  | cons a l ih =>
    intro hn i
    rw [List.map_cons, List.nodup_cons] at hn
    rw [List.countP_cons]
    by_cases h : a.Id = i
    · have hzero : l.countP (fun r => decide (r.Id = i)) = 0 := by
        rw [List.countP_eq_zero]
        intro r hr hpred
        rw [decide_eq_true_eq] at hpred
        have hmem : r.Id ∈ l.map (fun r => r.Id) := List.mem_map_of_mem _ hr
        rw [hpred, ← h] at hmem
        exact hn.1 hmem
      simp [h, hzero]
    · simp [h]
      exact ih hn.2 i

/-- A zero tally for a foreign payment id stays zero across the update. -/
theorem countP_updatePRI_zero (i pid x : Nat) (hx : x ≠ pid) (l : List InvoiceRecord)
    (h0 : l.countP (fun r => decide (r.PaymentRemittanceId = some x)) = 0) :
    (updatePRI i pid l).countP (fun r => decide (r.PaymentRemittanceId = some x)) = 0 :=
  Nat.le_zero.mp (h0 ▸ countP_updatePRI_ne i pid x hx l)

/-- One payment iteration preserves the list of row identifiers. -/
theorem processPayment_map_id (p : InvoiceRecord) (dmap : String → List InvoiceRecord)
    (vc : Nat → Option VendorCase) (vm : Nat → Option Vendor)
    (oc : InvoiceRecord → InvoiceRecord → TxOutcome) (st : DbState) :
    (processPayment p dmap vc vm oc st).2.invoices.map (fun r => r.Id) =
      st.invoices.map (fun r => r.Id) := by
  rcases processPayment_invoices p dmap vc vm oc st with h | ⟨d, h⟩
  · rw [h]
  · rw [h, updatePRI_map_id]

/-- One payment iteration cannot raise the tally of another payment id. -/
theorem countP_after_payment_le (p : InvoiceRecord) (dmap : String → List InvoiceRecord)
    (vc : Nat → Option VendorCase) (vm : Nat → Option Vendor)
    (oc : InvoiceRecord → InvoiceRecord → TxOutcome) (st : DbState) (x : Nat)
    (hx : x ≠ p.Id) :
    (processPayment p dmap vc vm oc st).2.invoices.countP
        (fun r => decide (r.PaymentRemittanceId = some x)) ≤
      st.invoices.countP (fun r => decide (r.PaymentRemittanceId = some x)) := by
  rcases processPayment_invoices p dmap vc vm oc st with h | ⟨d, h⟩
  · rw [h]
  · rw [h]
    exact countP_updatePRI_ne d.Id p.Id x hx _

/-- A run over payments with foreign ids cannot raise the tally of `x`. -/
theorem countP_after_run_le (dmap : String → List InvoiceRecord)
    (vc : Nat → Option VendorCase) (vm : Nat → Option Vendor)
    (oc : InvoiceRecord → InvoiceRecord → TxOutcome) (x : Nat) :
    ∀ (ps : List InvoiceRecord) (st : DbState), (∀ q ∈ ps, x ≠ q.Id) →
      (processPayments ps dmap vc vm oc st).2.invoices.countP
          (fun r => decide (r.PaymentRemittanceId = some x)) ≤
        st.invoices.countP (fun r => decide (r.PaymentRemittanceId = some x)) := by
  intro ps
  induction ps with
  | nil => intro st _; exact Nat.le_refl _
  | cons q ps ih =>
    intro st hq
    rw [processPayments_cons]
    exact Nat.le_trans
      (ih _ (fun q2 h2 => hq q2 (List.mem_cons_of_mem q h2)))
      (countP_after_payment_le q dmap vc vm oc st x (hq q (List.mem_cons_self q ps)))

/-- One payment iteration keeps a foreign zero tally at zero. -/
theorem countP_zero_after_payment (p : InvoiceRecord) (dmap : String → List InvoiceRecord)
    (vc : Nat → Option VendorCase) (vm : Nat → Option Vendor)
    (oc : InvoiceRecord → InvoiceRecord → TxOutcome) (st : DbState) (x : Nat)
    (hx : x ≠ p.Id)
    (h0 : st.invoices.countP (fun r => decide (r.PaymentRemittanceId = some x)) = 0) :
    (processPayment p dmap vc vm oc st).2.invoices.countP
        (fun r => decide (r.PaymentRemittanceId = some x)) = 0 :=
  Nat.le_zero.mp (h0 ▸ countP_after_payment_le p dmap vc vm oc st x hx)

/-- The amount gate holds exactly when both stored amounts parse and the
payment amount equals the absolute deduction amount. -/
theorem amountGate_iff (a b : AmtVal) :
    amountGate a b = true ↔
      ∃ x y : ℚ, parseAmt a = some x ∧ parseAmt b = some y ∧ x = jsAbs y := by
  unfold amountGate
  cases parseAmt a <;> cases parseAmt b <;> simp

/-- A resolved match context certifies the three pure record gates. -/
theorem resolveMatchContext_some_gates (p d : InvoiceRecord)
    (vc : Nat → Option VendorCase) (vm : Nat → Option Vendor) (ctx : Nat × Nat)
    (h : resolveMatchContext p d vc vm = some ctx) :
    deductionTypeMissing d = false ∧ crossTypeRejected p d = false ∧
      amountGate p.InvoiceAmount d.InvoiceAmount = true := by
  cases h1 : deductionTypeMissing d with
  | true => unfold resolveMatchContext at h; rw [h1] at h; simp at h
  | false =>
    cases h2 : crossTypeRejected p d with
    | true => unfold resolveMatchContext at h; rw [h1, h2] at h; simp at h
    | false =>
      cases h3 : amountGate p.InvoiceAmount d.InvoiceAmount with
      | false => unfold resolveMatchContext at h; rw [h1, h2, h3] at h; simp at h
      | true => exact ⟨rfl, rfl, rfl⟩

/-- A matched pair passed the pre-transaction eligibility resolution. -/
theorem mapPTD_true_ctx (p d : InvoiceRecord) (vc : Nat → Option VendorCase)
    (vm : Nat → Option Vendor) (oc : TxOutcome) (st : DbState)
    (h : (mapPaymentToDeduction p d vc vm oc st).1 = true) :
    ∃ cid oid : Nat, resolveMatchContext p d vc vm = some (cid, oid) := by
  cases hc : resolveMatchContext p d vc vm with
  | none => rw [mapPTD_ctx_none p d vc vm oc st hc] at h; simp at h
  | some c => exact ⟨c.1, c.2, rfl⟩

/-- The `findOne` criteria select exactly the rows whose idempotence key
is the key of the entry a new insert would carry. -/
theorem ledgerKeyMatches_iff_entryKey (p : InvoiceRecord) (oid cid : Nat)
    (e : BillingLedgerEntry) :
    ledgerKeyMatches p oid e = true ↔ entryKey e = entryKey (newLedgerEntry p oid cid) := by
  simp only [ledgerKeyMatches, entryKey, newLedgerEntry, Bool.and_eq_true, beq_iff_eq,
    Prod.mk.injEq]
  constructor
  · intro h
    exact ⟨h.1.1.1.1, h.1.1.1.2, h.1.1.2, h.1.2, h.2⟩
  · intro h
    exact ⟨⟨⟨⟨h.1, h.2.1⟩, h.2.2.1⟩, h.2.2.2.1⟩, h.2.2.2.2⟩

/-- A one-entry ledger trivially satisfies the per-key bound. -/
theorem atMostOnePerKey_single (e : BillingLedgerEntry) : atMostOnePerKey [e] := by
  intro k
  rw [List.countP_cons, List.countP_nil]
  cases h : decide (entryKey e = k) <;> simp [h]

/-- Claim C1 counterexample: the candidate group for the key of `payA`
holds two deductions with the same raw amount (-50 twice), so the
spec-side AmbiguityGuard flags it, yet the run auto-maps the payment to
the first deduction of the group: the group is not skipped. -/
theorem c1_counterexample :
    specHasAmbiguousAmounts (buildDeductionMap [dedA, dedB] (jsKey payA)) = true ∧
    (processPayments [payA] (buildDeductionMap [dedA, dedB]) vcFix vmFix ocOk st0).1 =
      [some dedA] := by
  decide

/-- Claim C1 (amended): the engine applies no ambiguity suppression: even
when the candidate group carries duplicate raw amounts, the scan
auto-maps the first candidate that passes the chronology filter and whose
map attempt commits. -/
theorem c1_ambiguous_group_still_matched (p d : InvoiceRecord) (ds : List InvoiceRecord)
    (vc : Nat → Option VendorCase) (vm : Nat → Option Vendor)
    (oc : InvoiceRecord → InvoiceRecord → TxOutcome) (st : DbState)
    (_hamb : specHasAmbiguousAmounts (d :: ds) = true)
    (hd : ¬ d.InvoiceDate > p.InvoiceDate)
    (hm : (mapPaymentToDeduction p d vc vm (oc p d) st).1 = true) :
    tryCandidates p vc vm oc (d :: ds) st =
      (some d, (mapPaymentToDeduction p d vc vm (oc p d) st).2) :=
  tryCandidates_cons_true p d vc vm oc ds st hd hm

/-- Claim C1 amended witness at the two equal-amount fixtures. -/
theorem c1_ambiguous_group_still_matched_witness :
    specHasAmbiguousAmounts [dedA, dedB] = true ∧
    ¬ dedA.InvoiceDate > payA.InvoiceDate ∧
    (mapPaymentToDeduction payA dedA vcFix vmFix (ocOk payA dedA) st0).1 = true ∧
    tryCandidates payA vcFix vmFix ocOk [dedA, dedB] st0 =
      (some dedA, (mapPaymentToDeduction payA dedA vcFix vmFix (ocOk payA dedA) st0).2) :=
  ⟨by decide, by decide, by decide,
    c1_ambiguous_group_still_matched payA dedA [dedB] vcFix vmFix ocOk st0
      (by decide) (by decide) (by decide)⟩

/-- Claim C2: the code violates it.  Deduction 9 is consumed by payment 1,
stays in the index with its snapshot untouched, and is then selected and
matched again by the later payment 2 in the same run; the final table
rows all carry the identifier of the second payment (the first mapping is
overwritten). -/
theorem c2_consumed_deduction_rematched :
    (processPayments [payA, payB] (buildDeductionMap [dedA]) vcFix vmFix ocOk st1).1 =
      [some dedA, some dedA] ∧
    ∀ r ∈ (processPayments [payA, payB] (buildDeductionMap [dedA]) vcFix vmFix ocOk st1).2.invoices,
      r.PaymentRemittanceId = some payB.Id := by
  decide

/-- Claim C3 counterexample: nothing is re-validated inside the atomic
unit.  Run directly on an amount-ineligible pair (payment 100 against
deduction -50, which the pre-transaction checks reject), the unit still
commits the deduction update; and the chronology rule is absent from
`mapPaymentToDeduction` altogether: a deduction dated after the payment
maps successfully. -/
theorem c3_counterexample :
    resolveMatchContext payMismatch dedA vcFix vmFix = none ∧
    runTx payMismatch dedA 4 3 TxOutcome.ok st1 =
      some { invoices := updatePRI dedA.Id payMismatch.Id st1.invoices, ledger := [newLedgerEntry payMismatch 4 3], events := [] } ∧
    updatePRI dedA.Id payMismatch.Id st1.invoices ≠ st1.invoices ∧
    (mapPaymentToDeduction payA dedLate vcFix vmFix TxOutcome.ok st1).1 = true := by
  decide

/-- Claim C3 (amended): eligibility (claim type, amount, case validity) is
evaluated once, before the atomic unit begins — a pair that fails it
never enters the unit — and the unit itself re-validates nothing:
whenever it commits it has performed the deduction update
unconditionally; chronology is checked only in the payment loop. -/
theorem c3_eligibility_outside_unit (p d : InvoiceRecord)
    (vc : Nat → Option VendorCase) (vm : Nat → Option Vendor)
    (oc : TxOutcome) (st : DbState) :
    (resolveMatchContext p d vc vm = none → mapPaymentToDeduction p d vc vm oc st = (false, st)) ∧
    (∀ (oid cid : Nat) (st2 : DbState), runTx p d oid cid oc st = some st2 →
      st2.invoices = updatePRI d.Id p.Id st.invoices) :=
  ⟨mapPTD_ctx_none p d vc vm oc st,
   fun oid cid st2 h => runTx_some_invoices p d oid cid oc st st2 h⟩

/-- Claim C3 amended witness: the ineligible fixture pair is stopped
before the unit, and the committed fixture unit carries the update. -/
theorem c3_eligibility_outside_unit_witness :
    resolveMatchContext payMismatch dedA vcFix vmFix = none ∧
    mapPaymentToDeduction payMismatch dedA vcFix vmFix TxOutcome.ok st1 = (false, st1) ∧
    runTx payA dedA 4 3 TxOutcome.ok st1 = some stTx ∧
    stTx.invoices = updatePRI dedA.Id payA.Id st1.invoices :=
  ⟨by decide,
   (c3_eligibility_outside_unit payMismatch dedA vcFix vmFix TxOutcome.ok st1).1 (by decide),
   by decide,
   (c3_eligibility_outside_unit payA dedA vcFix vmFix TxOutcome.ok st1).2 4 3 stTx (by decide)⟩

/-- Claim C4 counterexample: deduction "SCPC-1" carries both markers, so
the claimed exactly-one-marker gate rejects the pair, yet the engine
matches it to the SC payment. -/
theorem c4_counterexample :
    specClaimTypeGate payA dedMixed = false ∧
    (mapPaymentToDeduction payA dedMixed vcFix vmFix TxOutcome.ok st1).1 = true := by
  decide

/-- Claim C4 (amended): the claim-type gate the code implements: the
payment carries at least one marker (the early skip), the deduction
carries at least one marker, and every marker the payment carries also
appears on the deduction; records carrying both markers are admissible.
Any map success passed the two deduction-side checks. -/
theorem c4_claim_type_gate (p d : InvoiceRecord)
    (vc : Nat → Option VendorCase) (vm : Nat → Option Vendor)
    (oc : TxOutcome) (st : DbState) :
    ((paymentTypeEligible p = true ∧ deductionTypeMissing d = false ∧
        crossTypeRejected p d = false) ↔
      ((subHasSC p.SubInvoiceNumber = true ∨ subHasPC p.SubInvoiceNumber = true) ∧
       (subHasSC d.SubInvoiceNumber = true ∨ subHasPC d.SubInvoiceNumber = true) ∧
       (subHasSC p.SubInvoiceNumber = true → subHasSC d.SubInvoiceNumber = true) ∧
       (subHasPC p.SubInvoiceNumber = true → subHasPC d.SubInvoiceNumber = true))) ∧
    ((mapPaymentToDeduction p d vc vm oc st).1 = true →
      deductionTypeMissing d = false ∧ crossTypeRejected p d = false) := by
  constructor
  · cases h1 : subHasSC p.SubInvoiceNumber <;> cases h2 : subHasPC p.SubInvoiceNumber <;>
      cases h3 : subHasSC d.SubInvoiceNumber <;> cases h4 : subHasPC d.SubInvoiceNumber <;>
      simp [paymentTypeEligible, deductionTypeMissing, crossTypeRejected, h1, h2, h3, h4]
  · intro h
    obtain ⟨cid, oid, hc⟩ := mapPTD_true_ctx p d vc vm oc st h
    have hg := resolveMatchContext_some_gates p d vc vm (cid, oid) hc
    exact ⟨hg.1, hg.2.1⟩

/-- Claim C4 amended witness: the both-marker deduction passes the gate of
the code, and a successful fixture match certifies the deduction-side
checks. -/
theorem c4_claim_type_gate_witness :
    (paymentTypeEligible payA = true ∧ deductionTypeMissing dedMixed = false ∧
      crossTypeRejected payA dedMixed = false) ∧
    (deductionTypeMissing dedA = false ∧ crossTypeRejected payA dedA = false) :=
  ⟨(c4_claim_type_gate payA dedMixed vcFix vmFix TxOutcome.ok st1).1.mpr
      ⟨by decide, by decide, by decide, by decide⟩,
   (c4_claim_type_gate payA dedA vcFix vmFix TxOutcome.ok st1).2 (by decide)⟩

/-- Claim C5 counterexample: a non-numeric stored amount is not treated as
zero.  The spec comparison (zero coercion) accepts the NaN payment
against the 0.00 deduction, while the code comparison is NaN-poisoned:
the otherwise fully eligible pair fails eligibility and is not matched. -/
theorem c5_counterexample :
    specAmountCmp AmtVal.nan (AmtVal.val 0) = true ∧
    amountGate AmtVal.nan (AmtVal.val 0) = false ∧
    resolveMatchContext payNaN dedZero vcFix vmFix = none ∧
    (mapPaymentToDeduction payNaN dedZero vcFix vmFix TxOutcome.ok st1).1 = false := by
  decide

/-- Claim C5 (amended): exact-amount law: a match is accepted only if both
stored amounts parse to numbers and the payment amount is exactly the
absolute value of the deduction amount; a missing value parses to zero
(via the "0" fallback), while a non-numeric value parses to NaN and can
never satisfy the gate. -/
theorem c5_exact_amount_law (p d : InvoiceRecord)
    (vc : Nat → Option VendorCase) (vm : Nat → Option Vendor)
    (oc : TxOutcome) (st : DbState) :
    ((mapPaymentToDeduction p d vc vm oc st).1 = true →
      ∃ a b : ℚ, parseAmt p.InvoiceAmount = some a ∧ parseAmt d.InvoiceAmount = some b ∧
        a = jsAbs b) ∧
    parseAmt AmtVal.missing = some 0 ∧ parseAmt AmtVal.nan = none := by
  refine ⟨?_, rfl, rfl⟩
  intro h
  obtain ⟨cid, oid, hc⟩ := mapPTD_true_ctx p d vc vm oc st h
  have hg := (resolveMatchContext_some_gates p d vc vm (cid, oid) hc).2.2
  exact (amountGate_iff p.InvoiceAmount d.InvoiceAmount).mp hg

/-- Claim C5 amended witness at the matched fixture pair. -/
theorem c5_exact_amount_law_witness :
    (mapPaymentToDeduction payA dedA vcFix vmFix TxOutcome.ok st1).1 = true ∧
    (∃ a b : ℚ, parseAmt payA.InvoiceAmount = some a ∧ parseAmt dedA.InvoiceAmount = some b ∧
      a = jsAbs b) :=
  ⟨by decide, (c5_exact_amount_law payA dedA vcFix vmFix TxOutcome.ok st1).1 (by decide)⟩

/-- Claim C6: idempotent ledger writes.  With an entry under the composite
key already present inside the unit, nothing is inserted, the deduction
update still proceeds, and the call reports success; moreover any map
attempt preserves the at-most-one-entry-per-key invariant. -/
theorem c6_ledger_idempotence (p d : InvoiceRecord)
    (vc : Nat → Option VendorCase) (vm : Nat → Option Vendor)
    (st : DbState) (cid oid : Nat) (e : BillingLedgerEntry) (oc : TxOutcome) :
    (resolveMatchContext p d vc vm = some (cid, oid) →
      st.ledger.find? (ledgerKeyMatches p oid) = some e →
      mapPaymentToDeduction p d vc vm TxOutcome.ok st =
        (true, { invoices := updatePRI d.Id p.Id st.invoices, ledger := st.ledger,
                 events := st.events ++ [LogEvent.mapped p.Id d.Id] })) ∧
    (atMostOnePerKey st.ledger →
      atMostOnePerKey (mapPaymentToDeduction p d vc vm oc st).2.ledger) := by
  constructor
  · intro hc hfind
    rw [mapPTD_tx_some p d vc vm TxOutcome.ok st _ cid oid hc
      (runTx_ok_existing p d oid cid st e hfind)]
  · intro hk
    rcases mapPTD_ledger_cases p d vc vm oc st with hl | ⟨cid2, oid2, _, hf, hl⟩
    · rw [hl]; exact hk
    · rw [hl]
      intro k
      rw [List.countP_append]
      by_cases hkey : entryKey (newLedgerEntry p oid2 cid2) = k
      · have hzero : st.ledger.countP (fun e2 => decide (entryKey e2 = k)) = 0 := by
          rw [List.countP_eq_zero]
          intro e2 he2 hpred
          rw [decide_eq_true_eq] at hpred
          have hkm : ledgerKeyMatches p oid2 e2 = true :=
            (ledgerKeyMatches_iff_entryKey p oid2 cid2 e2).mpr (hpred.trans hkey.symm)
          exact (List.find?_eq_none.mp hf e2 he2) hkm
        have hone : ([newLedgerEntry p oid2 cid2].countP (fun e2 => decide (entryKey e2 = k))) = 1 := by
          simp [hkey]
        rw [hzero, hone]
      · have hnew : ([newLedgerEntry p oid2 cid2].countP (fun e2 => decide (entryKey e2 = k))) = 0 := by
          simp [hkey]
        rw [hnew]
        simpa using hk k

/-- Claim C6 witness: a pre-existing fixture ledger entry is not
duplicated, the update proceeds, and the per-key bound is preserved. -/
theorem c6_ledger_idempotence_witness :
    resolveMatchContext payA dedA vcFix vmFix = some (3, 4) ∧
    stL.ledger.find? (ledgerKeyMatches payA 4) = some ledgerE ∧
    mapPaymentToDeduction payA dedA vcFix vmFix TxOutcome.ok stL =
      (true, { invoices := updatePRI dedA.Id payA.Id stL.invoices, ledger := stL.ledger,
               events := stL.events ++ [LogEvent.mapped payA.Id dedA.Id] }) ∧
    atMostOnePerKey (mapPaymentToDeduction payA dedA vcFix vmFix TxOutcome.ok stL).2.ledger :=
  ⟨by decide, by decide,
   (c6_ledger_idempotence payA dedA vcFix vmFix stL 3 4 ledgerE TxOutcome.ok).1
     (by decide) (by decide),
   (c6_ledger_idempotence payA dedA vcFix vmFix stL 3 4 ledgerE TxOutcome.ok).2
     (atMostOnePerKey_single ledgerE)⟩

/-- Claim C7: a failing atomic unit leaves both tables untouched (its
writes roll back together), the error is reported, the pair counts as
unmatched, and the engine continues: the scan proceeds with the remaining
candidates from the post-failure state, and every payment of the run
produces a result. -/
theorem c7_atomic_failure_contained (p d : InvoiceRecord)
    (vc : Nat → Option VendorCase) (vm : Nat → Option Vendor)
    (oc : InvoiceRecord → InvoiceRecord → TxOutcome) (st : DbState)
    (rest ps : List InvoiceRecord) (dmap : String → List InvoiceRecord) (cid oid : Nat) :
    ((mapPaymentToDeduction p d vc vm (oc p d) st).1 = false →
      (mapPaymentToDeduction p d vc vm (oc p d) st).2.invoices = st.invoices ∧
      (mapPaymentToDeduction p d vc vm (oc p d) st).2.ledger = st.ledger) ∧
    (resolveMatchContext p d vc vm = some (cid, oid) →
      runTx p d oid cid (oc p d) st = none →
      mapPaymentToDeduction p d vc vm (oc p d) st =
        (false, { st with events := st.events ++ [LogEvent.mapError p.Id d.Id] })) ∧
    (¬ d.InvoiceDate > p.InvoiceDate →
      (mapPaymentToDeduction p d vc vm (oc p d) st).1 = false →
      tryCandidates p vc vm oc (d :: rest) st =
        tryCandidates p vc vm oc rest (mapPaymentToDeduction p d vc vm (oc p d) st).2) ∧
    (processPayments ps dmap vc vm oc st).1.length = ps.length :=
  ⟨mapPTD_false_writes p d vc vm (oc p d) st,
   mapPTD_tx_none p d vc vm (oc p d) st cid oid,
   tryCandidates_cons_false p d vc vm oc rest st,
   processPayments_length dmap vc vm oc ps st⟩

/-- Claim C7 witness: with the always-failing-commit oracle the fixture
pair rolls back, reports, and the scan moves on. -/
theorem c7_atomic_failure_contained_witness :
    resolveMatchContext payA dedA vcFix vmFix = some (3, 4) ∧
    runTx payA dedA 4 3 (ocFail payA dedA) st1 = none ∧
    mapPaymentToDeduction payA dedA vcFix vmFix (ocFail payA dedA) st1 =
      (false, { st1 with events := st1.events ++ [LogEvent.mapError payA.Id dedA.Id] }) ∧
    tryCandidates payA vcFix vmFix ocFail [dedA] st1 =
      tryCandidates payA vcFix vmFix ocFail []
        (mapPaymentToDeduction payA dedA vcFix vmFix (ocFail payA dedA) st1).2 :=
  ⟨by decide, by decide,
   (c7_atomic_failure_contained payA dedA vcFix vmFix ocFail st1 [] [] (buildDeductionMap []) 3 4).2.1
     (by decide) (by decide),
   (c7_atomic_failure_contained payA dedA vcFix vmFix ocFail st1 [] [] (buildDeductionMap []) 3 4).2.2.1
     (by decide) (by decide)⟩

/-- Claim C8: chronology gate.  A deduction dated strictly after the
payment is skipped for it with no attempt and no effect; any selected
deduction passed the gate; and the deduction remains a candidate for
other payments: the key group is payment-independent, and for any payment
dated on or after the deduction the scan attempts the pair, stopping
there exactly when the attempt commits. -/
theorem c8_chronology_gate (p p2 d : InvoiceRecord)
    (vc : Nat → Option VendorCase) (vm : Nat → Option Vendor)
    (oc : InvoiceRecord → InvoiceRecord → TxOutcome) (st st2 : DbState)
    (rest : List InvoiceRecord) :
    (d.InvoiceDate > p.InvoiceDate →
      tryCandidates p vc vm oc (d :: rest) st = tryCandidates p vc vm oc rest st) ∧
    (∀ (ds : List InvoiceRecord) (dsel : InvoiceRecord) (st3 : DbState),
      tryCandidates p vc vm oc ds st = (some dsel, st3) →
      ¬ dsel.InvoiceDate > p.InvoiceDate) ∧
    (∀ ds : List InvoiceRecord, d ∈ ds → d ∈ buildDeductionMap ds (jsKey d)) ∧
    (¬ d.InvoiceDate > p2.InvoiceDate →
      ((mapPaymentToDeduction p2 d vc vm (oc p2 d) st2).1 = true →
        tryCandidates p2 vc vm oc (d :: rest) st2 =
          (some d, (mapPaymentToDeduction p2 d vc vm (oc p2 d) st2).2)) ∧
      ((mapPaymentToDeduction p2 d vc vm (oc p2 d) st2).1 = false →
        tryCandidates p2 vc vm oc (d :: rest) st2 =
          tryCandidates p2 vc vm oc rest (mapPaymentToDeduction p2 d vc vm (oc p2 d) st2).2)) := by
  refine ⟨tryCandidates_cons_skip p d vc vm oc rest st,
          fun ds dsel st3 h => tryCandidates_selected_chrono p vc vm oc ds st dsel st3 h,
          ?_,
          fun hd => ⟨tryCandidates_cons_true p2 d vc vm oc rest st2 hd,
                     tryCandidates_cons_false p2 d vc vm oc rest st2 hd⟩⟩
  intro ds hmem
  unfold buildDeductionMap
  rw [List.mem_filter]
  exact ⟨hmem, by simp⟩

/-- Claim C8 witness: the late fixture deduction is skipped for `payA`,
the selected fixture deduction passed the gate, and the same deduction is
retained and attempted (successfully) from the head of another scan. -/
theorem c8_chronology_gate_witness :
    dedLate.InvoiceDate > payA.InvoiceDate ∧
    tryCandidates payA vcFix vmFix ocOk [dedLate] st1 = tryCandidates payA vcFix vmFix ocOk [] st1 ∧
    ¬ dedA.InvoiceDate > payA.InvoiceDate ∧
    dedA ∈ buildDeductionMap [dedA, dedB] (jsKey dedA) ∧
    (mapPaymentToDeduction payA dedA vcFix vmFix (ocOk payA dedA) st1).1 = true ∧
    tryCandidates payA vcFix vmFix ocOk [dedA, dedB] st1 = (some dedA, stAfterB) :=
  ⟨by decide,
   (c8_chronology_gate payA payA dedLate vcFix vmFix ocOk st1 st1 []).1 (by decide),
   (c8_chronology_gate payA payA dedA vcFix vmFix ocOk st1 st1 []).2.1 [dedA] dedA stAfterB
     (by decide),
   (c8_chronology_gate payA payA dedA vcFix vmFix ocOk st1 st1 [dedB]).2.2.1 [dedA, dedB]
     (by decide),
   by decide,
   ((c8_chronology_gate payA payA dedA vcFix vmFix ocOk st1 st1 [dedB]).2.2.2 (by decide)).1
     (by decide)⟩

/-- Claim C9: at most one deduction is consumed per payment.  Starting
from a table of unmapped rows with distinct ids and running over payments
with distinct ids, at most one row of the final table references any
given payment — the scan stops at the first committed match, later
payments write only their own identifiers. -/
theorem c9_at_most_one_per_payment (dmap : String → List InvoiceRecord)
    (vc : Nat → Option VendorCase) (vm : Nat → Option Vendor)
    (oc : InvoiceRecord → InvoiceRecord → TxOutcome) :
    ∀ (ps : List InvoiceRecord) (st : DbState) (p : InvoiceRecord),
      p ∈ ps →
      (ps.map (fun q => q.Id)).Nodup →
      (st.invoices.map (fun r => r.Id)).Nodup →
      (∀ q ∈ ps, st.invoices.countP (fun r => decide (r.PaymentRemittanceId = some q.Id)) = 0) →
      (processPayments ps dmap vc vm oc st).2.invoices.countP
          (fun r => decide (r.PaymentRemittanceId = some p.Id)) ≤ 1 := by
  intro ps
  induction ps with
  | nil =>
    intro st p hp
    exact absurd hp (List.not_mem_nil p)
  | cons q ps ih =>
    intro st p hp hnodup hids hzero
    rw [processPayments_cons]
    rw [List.map_cons, List.nodup_cons] at hnodup
    rcases List.mem_cons.mp hp with heq | hp2
    · subst heq
      have hafter : (processPayment p dmap vc vm oc st).2.invoices.countP
          (fun r => decide (r.PaymentRemittanceId = some p.Id)) ≤ 1 := by
        rcases processPayment_invoices p dmap vc vm oc st with h | ⟨dd, h⟩
        · rw [h, hzero p (List.mem_cons_self p ps)]
          exact Nat.zero_le 1
        · rw [h]
          have hb := countP_updatePRI_self_le dd.Id p.Id st.invoices
          rw [hzero p (List.mem_cons_self p ps)] at hb
          have hone := countP_id_le_one_of_nodup st.invoices hids dd.Id
          omega
      have hforeign : ∀ q2 ∈ ps, p.Id ≠ q2.Id := by
        intro q2 hq2 heq2
        exact hnodup.1 (heq2 ▸ List.mem_map_of_mem (fun r => r.Id) hq2)
      exact Nat.le_trans (countP_after_run_le dmap vc vm oc p.Id ps _ hforeign) hafter
    · apply ih _ p hp2 hnodup.2
      · rw [processPayment_map_id]
        exact hids
      · intro q2 hq2
        apply countP_zero_after_payment q dmap vc vm oc st q2.Id
        · intro heq2
          exact hnodup.1 (heq2 ▸ List.mem_map_of_mem (fun r => r.Id) hq2)
        · exact hzero q2 (List.mem_cons_of_mem q hq2)

/-- Claim C9 witness at the two-payment fixture run. -/
theorem c9_at_most_one_per_payment_witness :
    payA ∈ [payA, payB] ∧
    (([payA, payB].map (fun q => q.Id)).Nodup) ∧
    ((st1.invoices.map (fun r => r.Id)).Nodup) ∧
    (∀ q ∈ [payA, payB],
      st1.invoices.countP (fun r => decide (r.PaymentRemittanceId = some q.Id)) = 0) ∧
    (processPayments [payA, payB] (buildDeductionMap [dedA]) vcFix vmFix ocOk st1).2.invoices.countP
        (fun r => decide (r.PaymentRemittanceId = some payA.Id)) ≤ 1 :=
  ⟨by decide, by decide, by decide, by decide,
   c9_at_most_one_per_payment (buildDeductionMap [dedA]) vcFix vmFix ocOk [payA, payB] st1 payA
     (by decide) (by decide) (by decide) (by decide)⟩

/-- Claim C10: a record with a null sub-invoice identifier never breaks
the engine — the embedding of the optional-chaining checks is total.
Such a payment is skipped with no effect before any candidate lookup (the
result holds for every candidate index), and such a deduction is
classified as carrying neither marker and rejected as ineligible. -/
theorem c10_null_subinvoice_safe (p d : InvoiceRecord)
    (dmap : String → List InvoiceRecord) (vc : Nat → Option VendorCase)
    (vm : Nat → Option Vendor) (oc : InvoiceRecord → InvoiceRecord → TxOutcome)
    (st : DbState) :
    (p.SubInvoiceNumber = none → processPayment p dmap vc vm oc st = (none, st)) ∧
    (d.SubInvoiceNumber = none →
      deductionTypeMissing d = true ∧
      mapPaymentToDeduction p d vc vm (oc p d) st = (false, st)) := by
  constructor
  · intro hsub
    apply processPayment_skip
    simp [paymentTypeEligible, subHasSC, subHasPC, hsub]
  · intro hsub
    have hmiss : deductionTypeMissing d = true := by
      simp [deductionTypeMissing, subHasSC, subHasPC, hsub]
    refine ⟨hmiss, mapPTD_ctx_none p d vc vm (oc p d) st ?_⟩
    unfold resolveMatchContext
    rw [hmiss]
    simp

/-- Claim C10 witness at the null-sub-invoice fixtures. -/
theorem c10_null_subinvoice_safe_witness :
    payNoSub.SubInvoiceNumber = none ∧
    processPayment payNoSub (buildDeductionMap [dedA]) vcFix vmFix ocOk st1 = (none, st1) ∧
    dedNoSub.SubInvoiceNumber = none ∧
    mapPaymentToDeduction payA dedNoSub vcFix vmFix (ocOk payA dedNoSub) st1 = (false, st1) :=
  ⟨rfl,
   (c10_null_subinvoice_safe payNoSub dedA (buildDeductionMap [dedA]) vcFix vmFix ocOk st1).1 rfl,
   rfl,
   ((c10_null_subinvoice_safe payA dedNoSub (buildDeductionMap [dedA]) vcFix vmFix ocOk st1).2 rfl).2⟩
